import Mathlib

/-
Verification development for `src/build_samate.py` (SAMATE Juliet build tool).

The Python source is shallowly embedded below:
  * the two compiled regular expressions of `find_all_testcases`
    (`dirs_regexp` and `files_regexp`) become decidable predicates on
    `List Char`;
  * the recursive directory walk `find_all_testcases_rec` becomes a pair
    of mutually recursive functions over a filesystem tree datatype;
  * the batch-building loop of `main` (lines 426-453) becomes pure
    recursive functions over the discovered-unit list;
  * the `Jobs` thread pool becomes a step relation on an explicit state
    (slots + running counter) and pure functions for `has_errors` /
    `wait_jobs`;
  * the support-file retry loop (lines 399-416) becomes a function of the
    failure behaviour of each attempt.
-/

/-- The `--language` choice (`choices=["cpp", "java"]`, line 286). -/
inductive Lang
| cpp
| java
deriving DecidableEq

/--
Model of matching `re.compile("^CWE([0-9]+)_.*|s[0-9]+$").match(child)`
restricted to the first alternative `^CWE([0-9]+)_.*` (line 151):
`re.match` anchors at the start; `[0-9]+` is one or more digits and,
since `_` is not a digit, the greedy digit run must be followed directly
by `_`; the trailing `.*` imposes no constraint because it may match the
empty string and nothing follows it.  Returns the captured group 1 (the
digit substring) on success.
-/
def cweGroup (cs : List Char) : Option (List Char) :=
  match cs with
  | 'C' :: 'W' :: 'E' :: rest =>
      let ds := rest.takeWhile Char.isDigit
      match rest.dropWhile Char.isDigit with
      | '_' :: _ => if ds.isEmpty then none else some ds
      | _ => none
  | _ => none

/--
Model of the second alternative `s[0-9]+$` of `dirs_regexp` (line 152),
matched from the start of the name by `re.match`: the letter `s`, one or
more digits, then end of string (Python's `$` also matches just before a
single trailing newline).
-/
def sMatch (cs : List Char) : Bool :=
  match cs with
  | 's' :: rest =>
      let ds := rest.takeWhile Char.isDigit
      let tail := rest.dropWhile Char.isDigit
      !ds.isEmpty && (tail.isEmpty || tail == ['\n'])
  | _ => false

/--
Model of `dirs_regexp.match(child)` (lines 151-154): `none` means no
match (the directory is skipped), `some none` a subdivision-directory
match (group 1 absent), `some (some ds)` a category-directory match with
captured digit substring `ds`.  The two alternatives are disjoint (one
starts with `C`, the other with `s`), so alternation order is
irrelevant.
-/
def dirsMatch (cs : List Char) : Option (Option (List Char)) :=
  match cweGroup cs with
  | some ds => some (some ds)
  | none => if sMatch cs then some none else none

/-- Drop a single trailing newline, as Python's `$` anchor allows. -/
def dropTrailingNewline (cs : List Char) : List Char :=
  match cs.reverse with
  | '\n' :: t => t.reverse
  | _ => cs

/--
Model of `re.compile("^CWE[0-9]+_.*\\.(c|cpp)$").match(child)` (line
159): prefix `CWE`, one or more digits, `_`, then (via the backtracking
of `.*`, which cannot cross a newline) any newline-free text ending in
`.c` or `.cpp`, with an optional single trailing newline absorbed by
`$`.
-/
def filesMatchCpp (cs : List Char) : Bool :=
  match cs with
  | 'C' :: 'W' :: 'E' :: rest =>
      let ds := rest.takeWhile Char.isDigit
      match rest.dropWhile Char.isDigit with
      | '_' :: r =>
          let r2 := dropTrailingNewline r
          !ds.isEmpty && r2.all (fun c => c != '\n') &&
            (['.', 'c'].isSuffixOf r2 || ['.', 'c', 'p', 'p'].isSuffixOf r2)
      | _ => false
  | _ => false

/--
Model of `re.compile("build\\.xml$").match(child)` (line 162): `re.match`
anchors at the start, so the name must be exactly `build.xml`
(optionally with one trailing newline absorbed by `$`).
-/
def filesMatchJava (cs : List Char) : Bool :=
  cs == "build.xml".data || cs == ("build.xml".data ++ ['\n'])

/-- `files_regexp` selection by language (lines 158-165). -/
def filesMatch (lang : Lang) (cs : List Char) : Bool :=
  match lang with
  | Lang.cpp => filesMatchCpp cs
  | Lang.java => filesMatchJava cs

/-- The single hard-excluded filename (line 134). -/
def hardExcludedName : String :=
  "CWE397_Throw_Generic_Exception__declare_dotdotdot_w32_01.cpp"

/-- A filesystem entry: each `os.listdir` child is a file or a directory. -/
inductive FSTree
| file (name : String)
| dir (name : String) (children : List FSTree)

/-- Observable log lines of the discovery walk (lines 127 and 137). -/
inductive LogEvent
| foundCWE (id : String) (count : Nat)
| excludedFile (name : String)
deriving DecidableEq

/--
The `recurse_in` computation for a CWE-labelled directory
(lines 109-118 of `find_all_testcases_rec`):
`recurse_in = False`; set to `True` when
`dir_match.group(1) in cwes_include or not cwes_include`; reset to
`False` when `dir_match.group(1) in cwes_exclude`.  Python set
membership on strings is plain string equality, modelled as list
membership of `String`.
-/
def category_decision (id : String) (inc exc : List String) : Bool :=
  let recurse_in := if id ∈ inc ∨ inc = [] then true else false
  if id ∈ exc then false else recurse_in

mutual

/--
One `os.listdir` child of `find_all_testcases_rec` (lines 101-140).
A directory is tested against `dirs_regexp`; on a category match the
include/exclude decision `category_decision` gates the recursion and a
`foundCWE` line is printed after it (line 127); on a subdivision match
recursion is unconditional; on no match the child is skipped.  A file is
tested against `files_regexp`; a match is appended to the results unless
it is the hard-excluded name while building for gcc (lines 130-140), in
which case only the exclusion reason is logged.  Paths are lists of
components; `os.path.join(search_dir, child)` is `p ++ [name]`.
-/
def findRecChild (inc exc : List String) (forGcc : Bool) (lang : Lang)
    (p : List String) : FSTree → List (List String) × List LogEvent
  | FSTree.dir name children =>
      match dirsMatch name.data with
      | none => ([], [])
      | some none => findRecChildren inc exc forGcc lang (p ++ [name]) children
      | some (some ds) =>
          let id := String.mk ds
          if category_decision id inc exc then
            let sub := findRecChildren inc exc forGcc lang (p ++ [name]) children
            (sub.1, sub.2 ++ [LogEvent.foundCWE id sub.1.length])
          else ([], [])
  | FSTree.file name =>
      if filesMatch lang name.data then
        if name = hardExcludedName ∧ forGcc then
          ([], [LogEvent.excludedFile name])
        else ([p ++ [name]], [])
      else ([], [])

/--
The `for child in os.listdir(search_dir)` loop of
`find_all_testcases_rec` (line 102): children processed in listing
order, results and log lines concatenated in that order.
-/
def findRecChildren (inc exc : List String) (forGcc : Bool) (lang : Lang)
    (p : List String) : List FSTree → List (List String) × List LogEvent
  | [] => ([], [])
  | c :: cs =>
      let r1 := findRecChild inc exc forGcc lang p c
      let r2 := findRecChildren inc exc forGcc lang p cs
      (r1.1 ++ r2.1, r1.2 ++ r2.2)

end

/--
`find_all_testcases` (lines 144-182): builds the regexes and the
include/exclude sets and calls the recursive walk with
`for_gcc = not args.cl` (line 181).
-/
def find_all_testcases (lang : Lang) (cl : Bool) (inc exc : List String)
    (rootPath : List String) (rootChildren : List FSTree) :
    List (List String) × List LogEvent :=
  findRecChildren inc exc (!cl) lang rootPath rootChildren

/--
Python 3 `round` on the exact rational `n / c` (banker's rounding:
ties go to the even quotient), used at line 431 for
`round(len(testcases) / args.threads)`.  The float division of the
source is modelled as exact rational division.
-/
def pyRound (n c : Nat) : Nat :=
  let q := n / c
  let r := n % c
  if 2 * r < c then q
  else if c < 2 * r then q + 1
  else if q % 2 = 0 then q else q + 1

/--
`chunk_max` (lines 428-431): 1 for Java (one build file per `ant`
call), `min(50, round(len(testcases) / args.threads))` for C/C++.
-/
def chunk_max_for (lang : Lang) (n threads : Nat) : Nat :=
  match lang with
  | Lang.java => 1
  | Lang.cpp => min 50 (pyRound n threads)

/--
The batch-building loop of `main` (lines 426-453) in a run where no
batch fails (so the `has_errors` early-stop never fires and the
single-threaded and threaded paths dispatch the same chunks): walk the
testcase list accumulating `chunk` / `chunk_size`; dispatch whenever
`chunk_size >= chunk_max`; dispatch the non-empty remainder at the end
(`if chunk_size >= 1`).  Returns the dispatched chunks in dispatch
order.
-/
def chunk_loop (chunk_max : Nat) :
    List String → List String → Nat → List (List String)
  | [], chunk, chunk_size => if 1 ≤ chunk_size then [chunk] else []
  | t :: rest, chunk, chunk_size =>
      if chunk_max ≤ chunk_size + 1 then
        (chunk ++ [t]) :: chunk_loop chunk_max rest [] 0
      else
        chunk_loop chunk_max rest (chunk ++ [t]) (chunk_size + 1)

/-- Entry point of the batching loop: `chunk = []`, `chunk_size = 0`. -/
def batches (l : List String) (chunk_max : Nat) : List (List String) :=
  chunk_loop chunk_max l [] 0

/--
The threaded (`args.threads != 1`) batch-submission loop of `main`
(lines 432-453) with the early-stop check: `hasErr d` is the value
`jobs.has_errors()` observed immediately after the `d`-th (0-based)
`start_job` call (line 444).  Faithful to the source, the `break` at
line 445 leaves `chunk` and `chunk_size` un-reset, so the
final-remainder test `if chunk_size >= 1` (line 448) re-dispatches the
chunk that was just submitted.  Returns the argument of every
`start_job` call, in call order.
-/
def submit_loop (chunk_max : Nat) (hasErr : Nat → Bool) :
    List String → List String → Nat → Nat → List (List String)
  | [], chunk, chunk_size, _ => if 1 ≤ chunk_size then [chunk] else []
  | t :: rest, chunk, chunk_size, d =>
      if chunk_max ≤ chunk_size + 1 then
        if hasErr d then
          (chunk ++ [t]) ::
            (if 1 ≤ chunk_size + 1 then [chunk ++ [t]] else [])
        else
          (chunk ++ [t]) :: submit_loop chunk_max hasErr rest [] 0 (d + 1)
      else
        submit_loop chunk_max hasErr rest (chunk ++ [t]) (chunk_size + 1) d

/-- `Jobs.has_errors` (lines 83-84): `bool(self.errors)`. -/
def has_errors (errors : List String) : Bool :=
  !errors.isEmpty

/--
`Jobs.wait_jobs` (lines 86-95) after all threads have joined: raises
(with the reported count `len(self.errors)`) iff the accumulated error
list is non-empty, otherwise returns normally.
-/
def wait_jobs (errors : List String) : Except Nat Unit :=
  if 0 < errors.length then Except.error errors.length else Except.ok ()

/--
The error list accumulated by the pool once the completions listed in
`outs` have happened (lines 69-76): each completed job appends its
exception when it fails (`some e`) and nothing when it succeeds
(`none`).
-/
def errors_of (outs : List (Option String)) : List String :=
  outs.filterMap id

/--
Initial `args.use_pipe` (lines 366-369): `True`, set to `False` when
`args.cl` is given (cl has no such setting).
-/
def use_pipe_init (cl : Bool) : Bool :=
  !cl

/--
The support-file build loop of `main` (lines 399-416), unrolled:
`while not success: try build; except: if use_pipe: use_pipe = False
else: raise`.  Since `use_pipe` only ever transitions from `true` to
`false` the loop runs at most two iterations, so the unrolling is
exact.  `fails up` says whether `build_source_files` raises when
`args.use_pipe = up`; the result carries the final `use_pipe` on
success and `Except.error ()` for the fatal re-raise.
-/
def support_build (fails : Bool → Bool) (use_pipe0 : Bool) :
    Except Unit Bool :=
  if fails use_pipe0 then
    if use_pipe0 then
      if fails false then Except.error () else Except.ok false
    else Except.error ()
  else Except.ok use_pipe0

/--
The `use_pipe` value of each `build_source_files` attempt made by the
support-file loop (lines 399-416), in attempt order.
-/
def support_attempts (fails : Bool → Bool) (use_pipe0 : Bool) :
    List Bool :=
  if fails use_pipe0 then
    if use_pipe0 then [use_pipe0, false] else [use_pipe0]
  else [use_pipe0]

/-- The observable phases of `main` relevant to configuration checking. -/
inductive Ev
| scanTestcases
| buildSupport
| threadsError
| startBatching
deriving DecidableEq

/--
Phase order of `main` (lines 375-431): `find_all_testcases` runs at
line 378, the support-file pre-build (C/C++ only) at lines 399-416, and
only then is `args.threads >= 1` checked (lines 422-425), raising
`'threads' argument is non-positive.` when it fails; otherwise the
batching/dispatch phase begins.
-/
def main_events (lang : Lang) (threads : Int) : List Ev :=
  [Ev.scanTestcases]
    ++ (match lang with
        | Lang.cpp => [Ev.buildSupport]
        | Lang.java => [])
    ++ (if 1 ≤ threads then [Ev.startBatching] else [Ev.threadsError])

/--
State of the `Jobs` pool (lines 60-81): `available` free semaphore
slots, `running` started-but-not-yet-released worker threads.
-/
structure PoolState where
  available : Nat
  running : Nat

/--
One transition of the `Jobs` pool: `submit` is `self.slots.acquire()`
followed by `thread.start()` (lines 78-80), possible only when a slot
is free; `complete` is the `finally: self.slots.release()` (line 76),
which runs on every exit path of a worker, successful or raising.
-/
inductive PoolStep : PoolState → PoolState → Prop
| submit (a r : Nat) : PoolStep ⟨a + 1, r⟩ ⟨a, r + 1⟩
| complete (a r : Nat) : PoolStep ⟨a, r + 1⟩ ⟨a + 1, r⟩

/--
States reachable from the freshly constructed pool
`Jobs(threads)` with `threads = N` (line 63: `Semaphore(threads)`, no
thread running).
-/
inductive PoolReachable (N : Nat) : PoolState → Prop
| init : PoolReachable N ⟨N, 0⟩
| step {s t : PoolState} :
    PoolReachable N s → PoolStep s t → PoolReachable N t


/-- The slot/running counters of a reachable pool state always sum to the capacity. -/
theorem pool_reachable_sum {N : Nat} {s : PoolState}
    (h : PoolReachable N s) : s.available + s.running = N := by
  induction h with
  | init => rfl
  | step _ hst ih => cases hst <;> simp_all <;> omega

/-- Concatenating the chunks dispatched by the batching loop restores the input. -/
theorem chunk_loop_flatten (m : Nat) :
    ∀ (l chunk : List String) (k : Nat), k = chunk.length →
      (chunk_loop m l chunk k).flatten = chunk ++ l := by
  intro l
  induction l with
  | nil =>
      intro chunk k hk
      by_cases h1 : 1 ≤ k
      · simp [chunk_loop, h1]
      · have hc : chunk = [] := List.length_eq_zero.mp (by omega)
        simp [chunk_loop, h1, hc]
  | cons t rest ih =>
      intro chunk k hk
      by_cases hd : m ≤ k + 1
      · simp only [chunk_loop, if_pos hd, List.flatten_cons]
        rw [ih [] 0 rfl]
        simp
      · simp only [chunk_loop, if_neg hd]
        rw [ih (chunk ++ [t]) (k + 1) (by simp [hk])]
        simp

/-- Number of chunks dispatched by the batching loop with a positive chunk size. -/
theorem chunk_loop_length_pos (m : Nat) (hm : 1 ≤ m) :
    ∀ (l chunk : List String) (k : Nat), k < m →
      (chunk_loop m l chunk k).length = (l.length + k + (m - 1)) / m := by
  intro l
  induction l with
  | nil =>
      intro chunk k hk
      simp only [chunk_loop, List.length_nil]
      by_cases h1 : 1 ≤ k
      · rw [if_pos h1]
        have e1 : 0 + k + (m - 1) = (k - 1) + m := by omega
        rw [e1, Nat.add_div_right _ (by omega), Nat.div_eq_of_lt (by omega)]
        simp
      · rw [if_neg h1]
        have hk0 : k = 0 := by omega
        subst hk0
        rw [Nat.div_eq_of_lt (by omega)]
        rfl
  | cons t rest ih =>
      intro chunk k hk
      by_cases hd : m ≤ k + 1
      · simp only [chunk_loop, if_pos hd, List.length_cons]
        rw [ih [] 0 (by omega)]
        have e : rest.length + 1 + k + (m - 1) = (rest.length + 0 + (m - 1)) + m := by
          omega
        rw [e, Nat.add_div_right _ (by omega)]
      · simp only [chunk_loop, if_neg hd, List.length_cons]
        rw [ih (chunk ++ [t]) (k + 1) (by omega)]
        congr 1
        omega

/-- With `chunk_max = 0` every unit is dispatched as a singleton chunk. -/
theorem chunk_loop_zero_length :
    ∀ (l chunk : List String), (chunk_loop 0 l chunk 0).length = l.length := by
  intro l
  induction l with
  | nil => intro chunk; simp [chunk_loop]
  | cons t rest ih =>
      intro chunk
      simp only [chunk_loop, if_pos (by omega : (0 : Nat) ≤ 0 + 1), List.length_cons]
      rw [ih []]

/--
With no observed errors the threaded submission loop dispatches exactly
the chunks of the plain batching loop.
-/
theorem submit_loop_no_error_eq (m : Nat) :
    ∀ (l chunk : List String) (k d : Nat),
      submit_loop m (fun _ => false) l chunk k d = chunk_loop m l chunk k := by
  intro l
  induction l with
  | nil => intro chunk k d; rfl
  | cons t rest ih =>
      intro chunk k d
      have hfe : ¬ (false = true) := by simp
      by_cases hd : m ≤ k + 1
      · simp only [submit_loop, chunk_loop, if_pos hd, if_neg hfe, ih]
      · simp only [submit_loop, chunk_loop, if_neg hd, ih]

/--
C1: for every include and exclude set, a directory whose name matches
the category pattern with identifier `id` is recursed into by discovery
iff `(include empty OR id ∈ include) AND id ∉ exclude`, and in
particular exclusion dominates inclusion when `id` is in both sets.
-/
theorem category_inclusion_exclusion_spec (inc exc : List String) (id : String) :
    (category_decision id inc exc = true ↔ ((inc = [] ∨ id ∈ inc) ∧ id ∉ exc))
    ∧ (id ∈ inc → id ∈ exc → category_decision id inc exc = false)
    ∧ (∀ (forGcc : Bool) (lang : Lang) (p : List String) (name : String)
         (children : List FSTree),
        dirsMatch name.data = some (some id.data) →
        findRecChild inc exc forGcc lang p (FSTree.dir name children) =
          (if category_decision id inc exc then
            ((findRecChildren inc exc forGcc lang (p ++ [name]) children).1,
             (findRecChildren inc exc forGcc lang (p ++ [name]) children).2
               ++ [LogEvent.foundCWE id
                    (findRecChildren inc exc forGcc lang (p ++ [name]) children).1.length])
          else ([], []))) := by
  refine ⟨?_, ?_, ?_⟩
  · unfold category_decision
    by_cases hex : id ∈ exc <;> by_cases hin : id ∈ inc ∨ inc = [] <;>
      simp [hex, hin] <;> tauto
  · intro _ h2
    unfold category_decision
    simp [h2]
  · intro forGcc lang p name children h
    have hid : String.mk id.data = id := by
      cases id
      rfl
    simp only [findRecChild, h, hid]

/-- Witness for C1 at concrete inputs. -/
theorem category_inclusion_exclusion_spec_app :
    category_decision "78" ["78"] ["78"] = false
    ∧ findRecChild ["78"] [] true Lang.cpp [] (FSTree.dir "CWE78_a" [])
        = ([], [LogEvent.foundCWE "78" 0]) :=
  ⟨(category_inclusion_exclusion_spec ["78"] ["78"] "78").2.1 (by decide) (by decide),
   ((category_inclusion_exclusion_spec ["78"] [] "78").2.2
      true Lang.cpp [] "CWE78_a" [] (by decide)).trans (by decide)⟩

/--
C2: for a C/C++ run with `N` discovered units and concurrency level
`C ≥ 1`, the batching loop of `main` produces exactly
`ceil(N / max(1, min(50, round(N / C))))` batches, and concatenating
the dispatched batches in submission order yields exactly the original
discovery-ordered unit list (no unit duplicated or dropped), in a run
where no batch fails.
-/
theorem batch_count_and_concat (l : List String) (C : Nat) (hC : 1 ≤ C) :
    (batches l (chunk_max_for Lang.cpp l.length C)).length
      = (l.length + max 1 (chunk_max_for Lang.cpp l.length C) - 1)
        / max 1 (chunk_max_for Lang.cpp l.length C)
    ∧ (batches l (chunk_max_for Lang.cpp l.length C)).flatten = l := by
  constructor
  · rcases Nat.eq_zero_or_pos (chunk_max_for Lang.cpp l.length C) with h0 | hpos
    · rw [h0]
      unfold batches
      rw [chunk_loop_zero_length l []]
      simp
    · have hmax : max 1 (chunk_max_for Lang.cpp l.length C)
          = chunk_max_for Lang.cpp l.length C := by omega
      rw [hmax]
      unfold batches
      rw [chunk_loop_length_pos (chunk_max_for Lang.cpp l.length C) hpos l [] 0 hpos]
      congr 1
      omega
  · exact chunk_loop_flatten (chunk_max_for Lang.cpp l.length C) l [] 0 rfl

/-- Witness for C2 at a concrete unit list and concurrency level. -/
theorem batch_count_and_concat_app :
    (batches ["a", "b", "c"] (chunk_max_for Lang.cpp 3 2)).flatten
      = ["a", "b", "c"] :=
  (batch_count_and_concat ["a", "b", "c"] 2 (by decide)).2

/--
C3: contrary to the claim, once `has_errors()` reports true at the
post-dispatch check, the submission loop of `main` still performs one
more `start_job` call: the `break` at line 445 skips the chunk reset,
so the final-remainder dispatch at lines 448-453 re-submits the chunk
that was just dispatched.  Here, with `chunk_max = 2`, units
`[a, b, c, d]` and `has_errors()` observed true immediately after the
first dispatch, the loop performs two `start_job` calls, both with the
same chunk `[a, b]`, instead of stopping after the first.
-/
theorem early_stop_still_dispatches_remainder :
    submit_loop 2 (fun _ => true) ["a", "b", "c", "d"] [] 0 0
      = [["a", "b"], ["a", "b"]] := by
  rfl

/--
C4: if every submitted unit of work succeeds, `wait_jobs` returns
normally; if exactly one fails, `wait_jobs` raises with reported error
count exactly 1, and `has_errors` is true at any point after the
failing unit has completed.
-/
theorem join_all_error_reporting (outs : List (Option String)) :
    (errors_of outs = [] → wait_jobs (errors_of outs) = Except.ok ())
    ∧ ((errors_of outs).length = 1 → wait_jobs (errors_of outs) = Except.error 1)
    ∧ (∀ (k : Nat) (e : String), some e ∈ outs.take k →
        has_errors (errors_of (outs.take k)) = true) := by
  refine ⟨?_, ?_, ?_⟩
  · intro h
    rw [h]
    rfl
  · intro h
    unfold wait_jobs
    rw [if_pos (by omega), h]
  · intro k e hmem
    have he : e ∈ errors_of (outs.take k) :=
      List.mem_filterMap.mpr ⟨some e, hmem, rfl⟩
    unfold has_errors
    cases hL : errors_of (outs.take k) with
    | nil => rw [hL] at he; simp at he
    | cons a t => rfl

/-- Witness for C4: one success then one failure. -/
theorem join_all_error_reporting_app :
    wait_jobs (errors_of [Option.none, some "boom"]) = Except.error 1
    ∧ has_errors (errors_of ([Option.none, some "boom"].take 2)) = true :=
  ⟨(join_all_error_reporting [Option.none, some "boom"]).2.1 (by decide),
   (join_all_error_reporting [Option.none, some "boom"]).2.2 2 "boom" (by decide)⟩

/--
C5 counterexample: under the cl convention `use_pipe` starts disabled
(lines 366-369), so a first-attempt failure of the support-file
pre-build reaches the `else: raise` branch immediately: exactly one
attempt is made and the run aborts, contradicting "for every
configuration ... retries exactly once unconditionally".
-/
theorem support_retry_cl_no_retry :
    use_pipe_init true = false
    ∧ support_attempts (fun _ => true) (use_pipe_init true) = [false]
    ∧ support_build (fun _ => true) (use_pipe_init true) = Except.error () :=
  ⟨rfl, rfl, rfl⟩

/--
C5 amended: when the fast-I/O option is initially enabled (the gcc
convention, `use_pipe_init false = true`), a failing first attempt of
the support-file pre-build disables the option and retries exactly once
unconditionally; if that second attempt also fails the failure is
fatal; if either attempt succeeds the run proceeds without a fatal
condition.
-/
theorem support_retry_relaxation (fails : Bool → Bool) :
    (fails true = true → support_attempts fails true = [true, false])
    ∧ (fails true = true → fails false = true →
        support_build fails true = Except.error ())
    ∧ (fails true = true → fails false = false →
        support_build fails true = Except.ok false)
    ∧ (∀ up : Bool, fails up = false → support_build fails up = Except.ok up)
    ∧ use_pipe_init false = true := by
  refine ⟨?_, ?_, ?_, ?_, rfl⟩
  · intro h
    simp [support_attempts, h]
  · intro h1 h2
    simp [support_build, h1, h2]
  · intro h1 h2
    simp [support_build, h1, h2]
  · intro up h
    simp [support_build, h]

/-- Witness for C5 amended: fails with the pipe option, succeeds without. -/
theorem support_retry_relaxation_app :
    support_attempts (fun b => b) true = [true, false]
    ∧ support_build (fun b => b) true = Except.ok false :=
  ⟨(support_retry_relaxation (fun b => b)).1 rfl,
   (support_retry_relaxation (fun b => b)).2.2.1 rfl rfl⟩

/--
C6: the single hard-excluded filename, present under a matching
category directory: with the primary (gcc) process-invocation
convention active, discovery excludes it from the results and logs the
exclusion reason; with the alternate (cl) convention it is included.
-/
theorem hard_excluded_file_convention :
    find_all_testcases Lang.cpp false [] [] ["testcases"]
        [FSTree.dir "CWE397_Throw_Generic_Exception" [FSTree.file hardExcludedName]]
      = ([], [LogEvent.excludedFile hardExcludedName, LogEvent.foundCWE "397" 0])
    ∧ find_all_testcases Lang.cpp true [] [] ["testcases"]
        [FSTree.dir "CWE397_Throw_Generic_Exception" [FSTree.file hardExcludedName]]
      = ([["testcases", "CWE397_Throw_Generic_Exception", hardExcludedName]],
         [LogEvent.foundCWE "397" 1]) :=
  ⟨by decide, by decide⟩

/--
C7: a directory whose name matches neither the category pattern nor the
subdivision pattern is skipped entirely — discovery never recurses into
it, for every include/exclude setting — and the decoy names
`CACHE_temp`, `antbuild` and `s01foo` match neither pattern.
-/
theorem nonmatching_dirs_not_recursed :
    (∀ (inc exc : List String) (forGcc : Bool) (lang : Lang) (p : List String)
       (name : String) (children : List FSTree),
      dirsMatch name.data = none →
      findRecChild inc exc forGcc lang p (FSTree.dir name children) = ([], []))
    ∧ dirsMatch "CACHE_temp".data = none
    ∧ dirsMatch "antbuild".data = none
    ∧ dirsMatch "s01foo".data = none := by
  refine ⟨?_, by decide, by decide, by decide⟩
  intro inc exc forGcc lang p name children h
  simp only [findRecChild, h]

/-- Witness for C7: a decoy directory with a plausible testcase inside is skipped. -/
theorem nonmatching_dirs_not_recursed_app :
    findRecChild [] [] true Lang.cpp []
        (FSTree.dir "CACHE_temp" [FSTree.file "CWE121_x.c"]) = ([], []) :=
  nonmatching_dirs_not_recursed.1 [] [] true Lang.cpp [] "CACHE_temp"
    [FSTree.file "CWE121_x.c"] (by decide)

/--
C8 counterexample: with concurrency level 0 the run still performs the
discovery traversal (line 378) and the support-file pre-build
(lines 399-416) before the non-positive-threads check raises at
lines 422-425, contradicting "without performing any filesystem
discovery traversal or any process invocation".
-/
theorem threads_check_after_discovery :
    main_events Lang.cpp 0
      = [Ev.scanTestcases, Ev.buildSupport, Ev.threadsError]
    ∧ Ev.scanTestcases ∈ main_events Lang.cpp 0
    ∧ Ev.buildSupport ∈ main_events Lang.cpp 0 := by
  decide

/--
C8 amended: a non-positive concurrency level is a fatal configuration
error, but it is surfaced only after the discovery traversal and the
support-file pre-build have run; no test-case batch is ever dispatched.
-/
theorem threads_check_fatal_position (threads : Int) (h : threads < 1) :
    main_events Lang.cpp threads
      = [Ev.scanTestcases, Ev.buildSupport, Ev.threadsError]
    ∧ Ev.startBatching ∉ main_events Lang.cpp threads := by
  have h1 : ¬ (1 ≤ threads) := by omega
  have e : main_events Lang.cpp threads
      = [Ev.scanTestcases, Ev.buildSupport, Ev.threadsError] := by
    unfold main_events
    rw [if_neg h1]
    rfl
  refine ⟨e, ?_⟩
  rw [e]
  decide

/-- Witness for C8 amended at a concrete negative concurrency level. -/
theorem threads_check_fatal_position_app :
    Ev.startBatching ∉ main_events Lang.cpp (-3) :=
  (threads_check_fatal_position (-3) (by decide)).2

/--
C9: for every pool capacity `N ≥ 1`, at no reachable state of the pool
step relation (submit acquires a slot, completion releases it on every
exit path) does the number of concurrently running units of work exceed
`N`.
-/
theorem pool_capacity_bound (N : Nat) (s : PoolState)
    (hN : 1 ≤ N) (h : PoolReachable N s) : s.running ≤ N := by
  have := pool_reachable_sum h
  omega

/-- Witness for C9: one unit submitted into a capacity-1 pool. -/
theorem pool_capacity_bound_app : (PoolState.mk 0 1).running ≤ 1 :=
  pool_capacity_bound 1 ⟨0, 1⟩ (by decide)
    (PoolReachable.step PoolReachable.init (PoolStep.submit 0 0))

/--
C10: include/exclude membership is decided by exact textual equality on
the captured digit substring, never numerically: `CWE78_...` captures
`"78"` and `CWE078_...` captures `"078"`; an include entry `"078"` does
not admit a `CWE78_...` directory, an exclude entry `"78"` does not
reject a `CWE078_...` directory, and in general any entry textually
different from the captured identifier never matches it.
-/
theorem include_exclude_textual_matching :
    cweGroup "CWE78_foo".data = some "78".data
    ∧ cweGroup "CWE078_foo".data = some "078".data
    ∧ ("078" : String) ≠ "78"
    ∧ category_decision "78" ["078"] [] = false
    ∧ category_decision "078" [] ["78"] = true
    ∧ (∀ e id : String, e ≠ id →
        category_decision id [e] [] = false
        ∧ category_decision id [] [e] = true) := by
  refine ⟨by decide, by decide, by decide, by decide, by decide, ?_⟩
  intro e id h
  have h2 : id ≠ e := Ne.symm h
  constructor
  · simp [category_decision, h2]
  · simp [category_decision, h2]

/-- Witness for C10 at the leading-zero entry. -/
theorem include_exclude_textual_matching_app :
    category_decision "78" ["078"] [] = false
    ∧ category_decision "78" [] ["078"] = true :=
  include_exclude_textual_matching.2.2.2.2.2 "078" "78" (by decide)
